import Mathlib

/-!
Verification development for the UFO `QCmanager` quality-control filter
(`src/ufo/filters/QCmanager.cc`).

The core consists of three operations on a per-(variable, record) flag matrix:
* the constructor `QCmanager::QCmanager`, which checks dimension preconditions
  and then assigns `QCflags::missing` to every cell whose current flag,
  observed value or error estimate equals the missing sentinel;
* `QCmanager::postFilter`, which assigns `QCflags::Hfailed` to every `pass`
  cell whose simulated observation (`hofx`) equals the missing sentinel;
* `QCmanager::print`, which tallies per-category counts per variable, sums
  them across workers, lets rank 0 emit report lines, and asserts that the
  category counts add up to the total record count.

Modelling conventions: the flag matrix is a total function `Nat → Nat → Int`
of which only the cells with `jv < V`, `jobs < N` are meaningful (the loops
touch exactly those); float/double-valued arrays are modelled as `Int`-valued
arrays, since the only operation the code performs on them is equality
comparison with a missing-value sentinel, which is itself passed as an `Int`
parameter (`rmiss`, `dmiss`, and the integer sentinel `imiss`).
-/

namespace UfoQC

namespace QCflags

/-- Modelled from the spec: the header `QCflags.h` defining the named flag
codes is not part of the source tree, only `QCmanager.cc` is. The spec fixes
`pass` as the default/zero state (the code itself compares flags against the
literal `0` in `postFilter`) and the reality-check raw codes as 76 and 77;
the remaining named codes are represented as pairwise distinct small positive
integers. -/
def pass : Int := 0

/-- Flag code for missing observation data. -/
def missing : Int := 1

/-- Flag code assigned by the external pre-QC screen. -/
def preQC : Int := 2

/-- Flag code assigned by the external bounds check. -/
def bounds : Int := 3

/-- Flag code assigned by the external domain-of-use check. -/
def domain : Int := 4

/-- Flag code assigned by the external blacklist check. -/
def black : Int := 5

/-- Flag code for a failed forward-operator evaluation. -/
def Hfailed : Int := 6

/-- Flag code assigned by the external thinning step. -/
def thinned : Int := 7

/-- Flag code assigned by the external first-guess check. -/
def fguess : Int := 8

end QCflags

/-- Body of the constructor loop for one cell: if the current flag equals the
integer missing sentinel `imiss`, or the observed value or error estimate
equals the float missing sentinel `rmiss`, the cell becomes
`QCflags.missing`; otherwise it is unchanged
(`QCmanager.cc`, lines 55-61). -/
def initCell (imiss rmiss : Int) (flag obsv errv : Int) : Int :=
  if flag == imiss || obsv == rmiss || errv == rmiss then QCflags.missing else flag

/-- The double loop of `QCmanager::QCmanager` over `jv < observed_.size()`
and `jobs < obsdb_.nlocs()`, applying `initCell` to every cell of the flag
matrix; cells outside the loop ranges are untouched. -/
def qcmanagerInit (V N : Nat) (imiss rmiss : Int)
    (flags obsvals obserr : Nat → Nat → Int) : Nat → Nat → Int :=
  fun jv jobs =>
    if jv < V ∧ jobs < N then
      initCell imiss rmiss (flags jv jobs) (obsvals jv jobs) (obserr jv jobs)
    else flags jv jobs

/-- Body of the `postFilter` loop for one cell: a cell holding `0` (pass)
whose simulated observation equals the missing sentinel `dmiss` becomes
`QCflags.Hfailed`; every other cell is unchanged
(`QCmanager.cc`, lines 73-80). -/
def postCell (dmiss : Int) (flag hofxv : Int) : Int :=
  if flag == 0 && hofxv == dmiss then QCflags.Hfailed else flag

/-- The double loop of `QCmanager::postFilter`: for each cell `(jv, jobs)` in
range, the simulated observation is read at flat index
`iobs = observed_.size() * jobs + jv = V * jobs + jv`. -/
def postFilter (V N : Nat) (dmiss : Int) (hofx : Nat → Int)
    (flags : Nat → Nat → Int) : Nat → Nat → Int :=
  fun jv jobs =>
    if jv < V ∧ jobs < N then
      postCell dmiss (flags jv jobs) (hofx (V * jobs + jv))
    else flags jv jobs

/-- C1: after the Initializer (the `QCmanager` constructor loop) runs, a cell
`(jv, jobs)` of the matrix holds `missing` iff, before the run, its flag was
the integer missing sentinel, or the observed value or the error estimate at
`(jv, jobs)` was the float missing sentinel, or the cell already held
`missing`; and any cell for which none of the three sentinel conditions holds
keeps its prior flag unchanged. -/
theorem C1_initializer_contract (V N : Nat) (imiss rmiss : Int)
    (flags obsvals obserr : Nat → Nat → Int) (jv jobs : Nat)
    (hv : jv < V) (hn : jobs < N) :
    (qcmanagerInit V N imiss rmiss flags obsvals obserr jv jobs = QCflags.missing ↔
      (flags jv jobs = imiss ∨ obsvals jv jobs = rmiss ∨ obserr jv jobs = rmiss ∨
        flags jv jobs = QCflags.missing)) ∧
    (¬(flags jv jobs = imiss ∨ obsvals jv jobs = rmiss ∨ obserr jv jobs = rmiss) →
      qcmanagerInit V N imiss rmiss flags obsvals obserr jv jobs = flags jv jobs) := by
  unfold qcmanagerInit initCell
  rw [if_pos ⟨hv, hn⟩]
  constructor
  · by_cases h1 : flags jv jobs = imiss <;>
      by_cases h2 : obsvals jv jobs = rmiss <;>
      by_cases h3 : obserr jv jobs = rmiss <;>
      simp [h1, h2, h3]
  · intro h
    push_neg at h
    simp [h.1, h.2.1, h.2.2]

/-- Witness for C1 at `V = N = 1`, `imiss = 9`, `rmiss = 8`, a matrix holding
`pass`, an observed value equal to the sentinel and a valid error estimate:
the cell becomes `missing`. -/
theorem C1_initializer_contract_witness :
    ((qcmanagerInit 1 1 9 8 (fun _ _ => 0) (fun _ _ => 8) (fun _ _ => 5) 0 0 =
        QCflags.missing ↔
      ((0 : Int) = 9 ∨ (8 : Int) = 8 ∨ (5 : Int) = 8 ∨ (0 : Int) = QCflags.missing)) ∧
    (¬((0 : Int) = 9 ∨ (8 : Int) = 8 ∨ (5 : Int) = 8) →
      qcmanagerInit 1 1 9 8 (fun _ _ => 0) (fun _ _ => 8) (fun _ _ => 5) 0 0 = 0)) :=
  C1_initializer_contract 1 1 9 8 (fun _ _ => 0) (fun _ _ => 8) (fun _ _ => 5) 0 0
    (by decide) (by decide)

/-- C2: after `postFilter` runs with simulated observations `hofx`, a cell
that held `pass` and whose simulated value at flat index `V*jobs+jv` equals
the missing sentinel holds `Hfailed`; a cell that did not hold `pass` is
unchanged; a `pass` cell whose simulated value is not the sentinel stays
`pass`. -/
theorem C2_updater_contract (V N : Nat) (dmiss : Int) (hofx : Nat → Int)
    (flags : Nat → Nat → Int) (jv jobs : Nat) (hv : jv < V) (hn : jobs < N) :
    (flags jv jobs = QCflags.pass → hofx (V * jobs + jv) = dmiss →
      postFilter V N dmiss hofx flags jv jobs = QCflags.Hfailed) ∧
    (flags jv jobs ≠ QCflags.pass →
      postFilter V N dmiss hofx flags jv jobs = flags jv jobs) ∧
    (flags jv jobs = QCflags.pass → hofx (V * jobs + jv) ≠ dmiss →
      postFilter V N dmiss hofx flags jv jobs = QCflags.pass) := by
  unfold postFilter postCell QCflags.pass QCflags.Hfailed
  rw [if_pos ⟨hv, hn⟩]
  refine ⟨fun h1 h2 => ?_, fun h1 => ?_, fun h1 h2 => ?_⟩
  · simp [h1, h2]
  · simp [h1]
  · simp [h1, h2]

/-- Witness for C2 at `V = N = 1`, `dmiss = 7`, a `pass` matrix and a
simulated value equal to the sentinel: the cell becomes `Hfailed`. -/
theorem C2_updater_contract_witness :
    (((0 : Int) = QCflags.pass → (7 : Int) = 7 →
      postFilter 1 1 7 (fun _ => 7) (fun _ _ => 0) 0 0 = QCflags.Hfailed) ∧
    ((0 : Int) ≠ QCflags.pass →
      postFilter 1 1 7 (fun _ => 7) (fun _ _ => 0) 0 0 = 0) ∧
    ((0 : Int) = QCflags.pass → (7 : Int) ≠ 7 →
      postFilter 1 1 7 (fun _ => 7) (fun _ _ => 0) 0 0 = QCflags.pass)) :=
  C2_updater_contract 1 1 7 (fun _ => 7) (fun _ _ => 0) 0 0 (by decide) (by decide)

/-- Helper: `postCell` applied twice with the same simulated value equals
`postCell` applied once. -/
lemma postCell_idem (dmiss flag hofxv : Int) :
    postCell dmiss (postCell dmiss flag hofxv) hofxv = postCell dmiss flag hofxv := by
  unfold postCell QCflags.Hfailed
  by_cases h1 : flag = 0 <;> by_cases h2 : hofxv = dmiss <;> simp [h1, h2]

/-- Helper: `initCell` applied twice with the same inputs equals `initCell`
applied once. -/
lemma initCell_idem (imiss rmiss flag obsv errv : Int) :
    initCell imiss rmiss (initCell imiss rmiss flag obsv errv) obsv errv =
      initCell imiss rmiss flag obsv errv := by
  unfold initCell
  by_cases h1 : flag = imiss <;> by_cases h2 : obsv = rmiss <;>
    by_cases h3 : errv = rmiss <;> by_cases h4 : QCflags.missing = imiss <;>
    simp [h1, h2, h3, h4]

/-- Helper: `initCell` never moves a `missing` cell away from `missing`. -/
lemma initCell_missing_stable (imiss rmiss obsv errv : Int) :
    initCell imiss rmiss QCflags.missing obsv errv = QCflags.missing := by
  unfold initCell
  split <;> rfl

/-- C8: running `postFilter` twice with the same simulated-observation vector
produces the same flag matrix as running it once. -/
theorem C8_updater_idempotent (V N : Nat) (dmiss : Int) (hofx : Nat → Int)
    (flags : Nat → Nat → Int) :
    postFilter V N dmiss hofx (postFilter V N dmiss hofx flags) =
      postFilter V N dmiss hofx flags := by
  funext jv jobs
  unfold postFilter
  by_cases h : jv < V ∧ jobs < N
  · simp only [h, if_true]
    exact postCell_idem dmiss (flags jv jobs) (hofx (V * jobs + jv))
  · simp only [h, if_false]

/-- C9: the Initializer pass is idempotent (running it twice with the same
observed values and error estimates yields the same matrix), and it never
changes a cell holding `missing` to any other value. -/
theorem C9_initializer_idempotent (V N : Nat) (imiss rmiss : Int)
    (flags obsvals obserr : Nat → Nat → Int) (jv jobs : Nat) :
    (qcmanagerInit V N imiss rmiss
        (qcmanagerInit V N imiss rmiss flags obsvals obserr) obsvals obserr =
      qcmanagerInit V N imiss rmiss flags obsvals obserr) ∧
    (flags jv jobs = QCflags.missing →
      qcmanagerInit V N imiss rmiss flags obsvals obserr jv jobs = QCflags.missing) := by
  constructor
  · funext jv' jobs'
    unfold qcmanagerInit
    by_cases h : jv' < V ∧ jobs' < N
    · simp only [h, if_true]
      exact initCell_idem imiss rmiss (flags jv' jobs') (obsvals jv' jobs') (obserr jv' jobs')
    · simp only [h, if_false]
  · intro hm
    unfold qcmanagerInit
    by_cases h : jv < V ∧ jobs < N
    · simp only [h, if_true, hm]
      exact initCell_missing_stable imiss rmiss (obsvals jv jobs) (obserr jv jobs)
    · simp only [h, if_false, hm]

/-- Witness for C9 at `V = N = 1` with a matrix holding `missing`
everywhere, discharging the stability conjunct's hypothesis concretely. -/
theorem C9_initializer_idempotent_witness :
    (qcmanagerInit 1 1 9 8
        (qcmanagerInit 1 1 9 8 (fun _ _ => 1) (fun _ _ => 2) (fun _ _ => 3))
        (fun _ _ => 2) (fun _ _ => 3) =
      qcmanagerInit 1 1 9 8 (fun _ _ => 1) (fun _ _ => 2) (fun _ _ => 3)) ∧
    qcmanagerInit 1 1 9 8 (fun _ _ => 1) (fun _ _ => 2) (fun _ _ => 3) 0 0 =
      QCflags.missing :=
  ⟨(C9_initializer_idempotent 1 1 9 8 (fun _ _ => 1) (fun _ _ => 2)
      (fun _ _ => 3) 0 0).1,
   (C9_initializer_idempotent 1 1 9 8 (fun _ _ => 1) (fun _ _ => 2)
      (fun _ _ => 3) 0 0).2 (by decide)⟩

/-- One run of an operation of the core: either the constructor's
missing-data pass (with its sentinel parameters and input arrays) or a
`postFilter` pass (with its sentinel and simulated-observation vector). -/
inductive QCop where
  | init (imiss rmiss : Int) (obsvals obserr : Nat → Nat → Int)
  | post (dmiss : Int) (hofx : Nat → Int)

/-- Apply one operation to the flag matrix. -/
def applyOp (V N : Nat) (flags : Nat → Nat → Int) : QCop → Nat → Nat → Int
  | QCop.init imiss rmiss obsvals obserr =>
      qcmanagerInit V N imiss rmiss flags obsvals obserr
  | QCop.post dmiss hofx => postFilter V N dmiss hofx flags

/-- Apply a sequence of operations, left to right. -/
def applyOps (V N : Nat) (flags : Nat → Nat → Int) : List QCop → Nat → Nat → Int
  | [] => flags
  | op :: ops => applyOps V N (applyOp V N flags op) ops

/-- Helper: a single operation never moves a cell from a non-`pass` value
back to `pass`. -/
lemma applyOp_ne_pass (V N : Nat) (flags : Nat → Nat → Int) (op : QCop)
    (jv jobs : Nat) (h : flags jv jobs ≠ QCflags.pass) :
    applyOp V N flags op jv jobs ≠ QCflags.pass := by
  cases op with
  | init imiss rmiss obsvals obserr =>
    show qcmanagerInit V N imiss rmiss flags obsvals obserr jv jobs ≠ QCflags.pass
    unfold qcmanagerInit initCell QCflags.pass QCflags.missing
    unfold QCflags.pass at h
    split
    · split
      · decide
      · exact h
    · exact h
  | post dmiss hofx =>
    show postFilter V N dmiss hofx flags jv jobs ≠ QCflags.pass
    unfold postFilter postCell QCflags.pass QCflags.Hfailed
    unfold QCflags.pass at h
    split
    · split
      · decide
      · exact h
    · exact h

/-- C4: once a cell holds anything other than `pass`, no sequence of
Initializer and Updater runs ever sets it back to `pass`; moreover the
Updater leaves every non-`pass` cell unchanged, and the only overwrite the
Initializer performs on a non-`pass` cell is the assignment of `missing`. -/
theorem C4_never_downgrade (V N : Nat) (ops : List QCop)
    (flags : Nat → Nat → Int) (jv jobs : Nat)
    (h : flags jv jobs ≠ QCflags.pass) :
    applyOps V N flags ops jv jobs ≠ QCflags.pass ∧
    (∀ dmiss hofx, postFilter V N dmiss hofx flags jv jobs = flags jv jobs) ∧
    (∀ imiss rmiss obsvals obserr,
      qcmanagerInit V N imiss rmiss flags obsvals obserr jv jobs = flags jv jobs ∨
      qcmanagerInit V N imiss rmiss flags obsvals obserr jv jobs = QCflags.missing) := by
  refine ⟨?_, ?_, ?_⟩
  · induction ops generalizing flags with
    | nil => exact h
    | cons op ops ih => exact ih (applyOp V N flags op) (applyOp_ne_pass V N flags op jv jobs h)
  · intro dmiss hofx
    unfold postFilter postCell
    unfold QCflags.pass at h
    split
    · simp [h]
    · rfl
  · intro imiss rmiss obsvals obserr
    unfold qcmanagerInit initCell
    split
    · split
      · exact Or.inr rfl
      · exact Or.inl rfl
    · exact Or.inl rfl

/-- Witness for C4 with a cell pre-seeded to `preQC` and a run of the
Initializer followed by the Updater. -/
theorem C4_never_downgrade_witness :
    applyOps 1 1 (fun _ _ => 2)
        [QCop.init 9 8 (fun _ _ => 8) (fun _ _ => 3), QCop.post 7 (fun _ => 7)] 0 0 ≠
      QCflags.pass ∧
    (∀ dmiss hofx, postFilter 1 1 dmiss hofx (fun _ _ => 2) 0 0 =
      (fun _ _ => (2 : Int)) 0 0) ∧
    (∀ imiss rmiss obsvals obserr,
      qcmanagerInit 1 1 imiss rmiss (fun _ _ => 2) obsvals obserr 0 0 =
        (fun _ _ => (2 : Int)) 0 0 ∨
      qcmanagerInit 1 1 imiss rmiss (fun _ _ => 2) obsvals obserr 0 0 =
        QCflags.missing) :=
  C4_never_downgrade 1 1
    [QCop.init 9 8 (fun _ _ => 8) (fun _ _ => 3), QCop.post 7 (fun _ => 7)]
    (fun _ _ => 2) 0 0 (by decide)

/-- Model of `ioda::ObsDataVector`: a matrix carrying its own dimensions. -/
structure ObsDataVec where
  nvars : Nat
  nlocs : Nat
  data : Nat → Nat → Int

/-- Dimensions of the Observed-Value array: the constructor builds it from
the observation store and the observed-variable list
(`ioda::ObsDataVector<float> obs(obsdb, observed_, "ObsValue")`), so its
shape is `(observedLen, nlocs)` by construction. -/
def obsValueDims (observedLen nlocs : Nat) : Nat × Nat := (observedLen, nlocs)

/-- Model of the `QCmanager` constructor: the four `ASSERT`s on lines 45-48
compare the flag matrix's and the error-estimate array's dimensions to the
observed-variable list length and the store's record count; if any fails,
construction aborts and no flag matrix is produced; otherwise the
missing-data pass runs over the matrix. -/
def qcmanagerConstruct (imiss rmiss : Int) (observedLen nlocs : Nat)
    (flags obserr : ObsDataVec) (obsvals : Nat → Nat → Int) : Option ObsDataVec :=
  if flags.nvars == observedLen && flags.nlocs == nlocs
      && obserr.nvars == observedLen && obserr.nlocs == nlocs then
    some { nvars := flags.nvars, nlocs := flags.nlocs,
           data := qcmanagerInit observedLen nlocs imiss rmiss flags.data obsvals obserr.data }
  else none

/-- C5: construction produces no flag matrix exactly when the flag matrix's
`(V, N)` differs from the Observed-Value array's dimensions, or from the
Error-Estimate array's dimensions, or `V` differs from the length of the
observed-variable list; when all dimensions agree construction succeeds. -/
theorem C5_construction_dimension_check (imiss rmiss : Int)
    (observedLen nlocs : Nat) (flags obserr : ObsDataVec)
    (obsvals : Nat → Nat → Int) :
    qcmanagerConstruct imiss rmiss observedLen nlocs flags obserr obsvals = none ↔
      ((flags.nvars, flags.nlocs) ≠ obsValueDims observedLen nlocs ∨
       (flags.nvars, flags.nlocs) ≠ (obserr.nvars, obserr.nlocs) ∨
       flags.nvars ≠ observedLen) := by
  unfold qcmanagerConstruct obsValueDims
  split
  · rename_i hc
    simp only [Bool.and_eq_true, beq_iff_eq] at hc
    simp only [reduceCtorEq, false_iff, not_or, ne_eq, not_not, Prod.mk.injEq]
    omega
  · rename_i hc
    simp only [Bool.and_eq_true, beq_iff_eq, not_and_or] at hc
    simp only [ne_eq, Prod.mk.injEq, true_iff, not_and_or]
    omega

/-- The per-variable counters of `QCmanager::print` (lines 96-107): the
local record count `iobs` and one counter per category. -/
structure VarCounts where
  iobs : Nat
  ipass : Nat
  imiss : Nat
  ipreq : Nat
  ibnds : Nat
  iwhit : Nat
  iblck : Nat
  iherr : Nat
  ifgss : Nat
  ignss : Nat
  ithin : Nat
deriving DecidableEq

/-- The counting loop of `QCmanager::print` (lines 108-119) over one
worker's column `jj` of the flag matrix: each counter counts the cells equal
to its category's code, `ignss` counting the cells equal to 76 or to 77. -/
def localCounts (col : List Int) : VarCounts :=
  { iobs := col.length
    ipass := col.countP (fun x => x == QCflags.pass)
    imiss := col.countP (fun x => x == QCflags.missing)
    ipreq := col.countP (fun x => x == QCflags.preQC)
    ibnds := col.countP (fun x => x == QCflags.bounds)
    iwhit := col.countP (fun x => x == QCflags.domain)
    iblck := col.countP (fun x => x == QCflags.black)
    iherr := col.countP (fun x => x == QCflags.Hfailed)
    ifgss := col.countP (fun x => x == QCflags.fguess)
    ignss := col.countP (fun x => x == 76 || x == 77)
    ithin := col.countP (fun x => x == QCflags.thinned) }

/-- Componentwise sum of two counter records, the elementwise effect of the
`allReduceInPlace(·, eckit::mpi::sum())` calls (lines 121-131). -/
def addCounts (a b : VarCounts) : VarCounts :=
  { iobs := a.iobs + b.iobs
    ipass := a.ipass + b.ipass
    imiss := a.imiss + b.imiss
    ipreq := a.ipreq + b.ipreq
    ibnds := a.ibnds + b.ibnds
    iwhit := a.iwhit + b.iwhit
    iblck := a.iblck + b.iblck
    iherr := a.iherr + b.iherr
    ifgss := a.ifgss + b.ifgss
    ignss := a.ignss + b.ignss
    ithin := a.ithin + b.ithin }

/-- The all-zero counter record. -/
def zeroCounts : VarCounts :=
  { iobs := 0, ipass := 0, imiss := 0, ipreq := 0, ibnds := 0, iwhit := 0,
    iblck := 0, iherr := 0, ifgss := 0, ignss := 0, ithin := 0 }

/-- Global counts for one variable: each worker contributes its column, the
collective reduction sums the counter records over all workers. -/
def globalCounts (cols : List (List Int)) : VarCounts :=
  (cols.map localCounts).foldl addCounts zeroCounts

/-- Sum of the category counters in the order of the `ASSERT` on line 147. -/
def categorySum (c : VarCounts) : Nat :=
  c.ipass + c.imiss + c.ipreq + c.ibnds + c.iwhit + c.iblck + c.iherr +
    c.ithin + c.ifgss + c.ignss

/-- The completeness assertion of line 147:
`ipass + imiss + ipreq + ibnds + iwhit + iblck + iherr + ithin + ifgss + ignss == iobs`. -/
def checkCounts (c : VarCounts) : Bool :=
  categorySum c == c.iobs

/-- A raw flag code recognized by the counting loop: one of the named codes
or one of the two reality-check codes 76 and 77. -/
def isRecognized (x : Int) : Bool :=
  x == QCflags.pass || x == QCflags.missing || x == QCflags.preQC ||
    x == QCflags.bounds || x == QCflags.domain || x == QCflags.black ||
    x == QCflags.Hfailed || x == QCflags.thinned || x == QCflags.fguess ||
    x == 76 || x == 77

/-- One line of the report emitted by `QCmanager::print` (lines 134-144),
abstracted from string formatting: each constructor is one of the `os <<`
statements, carrying the `info` header and the count it reports. -/
inductive ReportLine where
  | missingValues (info : String) (n : Nat)
  | rejectedByPreQC (info : String) (n : Nat)
  | outOfBounds (info : String) (n : Nat)
  | outOfDomain (info : String) (n : Nat)
  | blackListed (info : String) (n : Nat)
  | hxFailed (info : String) (n : Nat)
  | removedByThinning (info : String) (n : Nat)
  | rejectedByFirstGuess (info : String) (n : Nat)
  | rejectedByGnssro (info : String) (n : Nat)
  | summary (info : String) (npass ntot : Nat)
deriving DecidableEq

/-- The `info` header string of line 133: `"QC " + obstype + " " + varname + ": "`. -/
def infoStr (obstype vname : String) : String :=
  "QC " ++ obstype ++ " " ++ vname ++ ": "

/-- The emission block of lines 134-144, in source order: one line per
category when its count is nonzero, then the always-emitted summary line. -/
def emitLines (info : String) (c : VarCounts) : List ReportLine :=
  (if c.imiss > 0 then [ReportLine.missingValues info c.imiss] else []) ++
  (if c.ipreq > 0 then [ReportLine.rejectedByPreQC info c.ipreq] else []) ++
  (if c.ibnds > 0 then [ReportLine.outOfBounds info c.ibnds] else []) ++
  (if c.iwhit > 0 then [ReportLine.outOfDomain info c.iwhit] else []) ++
  (if c.iblck > 0 then [ReportLine.blackListed info c.iblck] else []) ++
  (if c.iherr > 0 then [ReportLine.hxFailed info c.iherr] else []) ++
  (if c.ithin > 0 then [ReportLine.removedByThinning info c.ithin] else []) ++
  (if c.ifgss > 0 then [ReportLine.rejectedByFirstGuess info c.ifgss] else []) ++
  (if c.ignss > 0 then [ReportLine.rejectedByGnssro info c.ignss] else []) ++
  [ReportLine.summary info c.ipass c.iobs]

/-- The rank gate of line 132: only the worker of rank 0 emits. -/
def emitIfRankZero (rank : Nat) (info : String) (c : VarCounts) : List ReportLine :=
  if rank == 0 then emitLines info c else []

/-- The per-variable loop of `QCmanager::print` as seen by one worker of the
given rank: each entry pairs a variable name with the per-worker columns of
that variable; for each variable the counts are reduced over all workers,
rank 0 emits its lines, and then the `ASSERT` of line 147 runs — on failure
the process aborts, so no further variable is processed, but the lines
already streamed to `os` stand. The result is the emitted lines and whether
every assertion held. -/
def printVars (rank : Nat) (obstype : String) :
    List (String × List (List Int)) → List ReportLine × Bool
  | [] => ([], true)
  | (vname, cols) :: rest =>
    let c := globalCounts cols
    let lines := emitIfRankZero rank (infoStr obstype vname) c
    if checkCounts c then
      let r := printVars rank obstype rest
      (lines ++ r.1, r.2)
    else (lines, false)

/-- Helper: one cell contributes exactly one unit to the category sum iff
its code is recognized, and zero units otherwise (the category codes are
pairwise distinct). -/
lemma cellContrib (x : Int) :
    ((if x == QCflags.pass then 1 else 0) + (if x == QCflags.missing then 1 else 0) +
     (if x == QCflags.preQC then 1 else 0) + (if x == QCflags.bounds then 1 else 0) +
     (if x == QCflags.domain then 1 else 0) + (if x == QCflags.black then 1 else 0) +
     (if x == QCflags.Hfailed then 1 else 0) + (if x == QCflags.thinned then 1 else 0) +
     (if x == QCflags.fguess then 1 else 0) +
     (if x == 76 || x == 77 then 1 else 0) : Nat) =
      if isRecognized x then 1 else 0 := by
  unfold isRecognized QCflags.pass QCflags.missing QCflags.preQC QCflags.bounds
  unfold QCflags.domain QCflags.black QCflags.Hfailed QCflags.thinned QCflags.fguess
  rcases eq_or_ne x 0 with h | h0
  · subst h; decide
  rcases eq_or_ne x 1 with h | h1
  · subst h; decide
  rcases eq_or_ne x 2 with h | h2
  · subst h; decide
  rcases eq_or_ne x 3 with h | h3
  · subst h; decide
  rcases eq_or_ne x 4 with h | h4
  · subst h; decide
  rcases eq_or_ne x 5 with h | h5
  · subst h; decide
  rcases eq_or_ne x 6 with h | h6
  · subst h; decide
  rcases eq_or_ne x 7 with h | h7
  · subst h; decide
  rcases eq_or_ne x 8 with h | h8
  · subst h; decide
  rcases eq_or_ne x 76 with h | h9
  · subst h; decide
  rcases eq_or_ne x 77 with h | h10
  · subst h; decide
  simp [h0, h1, h2, h3, h4, h5, h6, h7, h8, h9, h10]

/-- Helper: the category sum of one worker's counters equals the number of
cells of the column holding a recognized code. -/
lemma categorySum_localCounts (col : List Int) :
    categorySum (localCounts col) = col.countP isRecognized := by
  induction col with
  | nil => rfl
  | cons a l ih =>
    simp only [categorySum, localCounts, List.countP_cons] at ih ⊢
    have h := cellContrib a
    omega

/-- Helper: the category sum distributes over `addCounts`. -/
lemma categorySum_addCounts (a b : VarCounts) :
    categorySum (addCounts a b) = categorySum a + categorySum b := by
  simp only [categorySum, addCounts]
  omega

/-- Helper: the record count distributes over `addCounts`. -/
lemma iobs_addCounts (a b : VarCounts) :
    (addCounts a b).iobs = a.iobs + b.iobs := rfl

/-- Helper: category sum of a left fold of counter records. -/
lemma categorySum_foldl (l : List VarCounts) (init : VarCounts) :
    categorySum (l.foldl addCounts init) =
      categorySum init + (l.map categorySum).sum := by
  induction l generalizing init with
  | nil => simp
  | cons a l ih =>
    simp only [List.foldl_cons, List.map_cons, List.sum_cons, ih, categorySum_addCounts]
    omega

/-- Helper: record count of a left fold of counter records. -/
lemma iobs_foldl (l : List VarCounts) (init : VarCounts) :
    (l.foldl addCounts init).iobs = init.iobs + (l.map VarCounts.iobs).sum := by
  induction l generalizing init with
  | nil => simp
  | cons a l ih =>
    simp only [List.foldl_cons, List.map_cons, List.sum_cons, ih, iobs_addCounts]
    omega

/-- Helper: the category sum of the global counts is the total number of
recognized cells over all workers. -/
lemma categorySum_globalCounts (cols : List (List Int)) :
    categorySum (globalCounts cols) =
      (cols.map (fun col => col.countP isRecognized)).sum := by
  unfold globalCounts
  rw [categorySum_foldl]
  simp only [List.map_map]
  have hz : categorySum zeroCounts = 0 := rfl
  rw [hz, Nat.zero_add]
  have hf : (categorySum ∘ localCounts) = fun col : List Int => col.countP isRecognized := by
    funext col
    exact categorySum_localCounts col
  rw [hf]

/-- Helper: the global record count is the total length of all columns. -/
lemma iobs_globalCounts (cols : List (List Int)) :
    (globalCounts cols).iobs = (cols.map List.length).sum := by
  unfold globalCounts
  rw [iobs_foldl]
  simp only [List.map_map]
  have hz : zeroCounts.iobs = 0 := rfl
  rw [hz, Nat.zero_add]
  have hf : (VarCounts.iobs ∘ localCounts) = (List.length : List Int → Nat) := by
    funext col
    rfl
  rw [hf]

/-- Helper: over any list of columns, the recognized-cell count is at most
the total cell count. -/
lemma sum_countP_le_sum_length (cs : List (List Int)) :
    (cs.map (fun col => col.countP isRecognized)).sum ≤ (cs.map List.length).sum := by
  induction cs with
  | nil => simp
  | cons d ds ihd =>
    simp only [List.map_cons, List.sum_cons]
    have := d.countP_le_length isRecognized
    omega

/-- Helper: the completeness check on the global counts holds iff every cell
of every worker's column carries a recognized code. -/
lemma checkCounts_globalCounts_iff (cols : List (List Int)) :
    checkCounts (globalCounts cols) = true ↔
      ∀ col ∈ cols, ∀ x ∈ col, isRecognized x = true := by
  unfold checkCounts
  rw [beq_iff_eq, categorySum_globalCounts, iobs_globalCounts]
  induction cols with
  | nil => simp
  | cons c cs ih =>
    simp only [List.map_cons, List.sum_cons, List.mem_cons]
    have h1 : c.countP isRecognized ≤ c.length := c.countP_le_length _
    have h2 : (cs.map (fun col => col.countP isRecognized)).sum ≤
        (cs.map List.length).sum := sum_countP_le_sum_length cs
    constructor
    · intro h col hcol
      have hc : c.countP isRecognized = c.length := by omega
      have hcs : (cs.map (fun col => col.countP isRecognized)).sum =
          (cs.map List.length).sum := by omega
      rcases hcol with h | h
      · subst h
        exact fun x hx => List.countP_eq_length.mp hc x hx
      · exact ih.mp hcs col h
    · intro h
      have hc : c.countP isRecognized = c.length :=
        List.countP_eq_length.mpr (h c (Or.inl rfl))
      have hcs : (cs.map (fun col => col.countP isRecognized)).sum =
          (cs.map List.length).sum :=
        ih.mpr (fun col hcol => h col (Or.inr hcol))
      omega

/-- Helper: one unfolding step of the per-variable loop. -/
lemma printVars_cons (rank : Nat) (obstype vname : String)
    (cols : List (List Int)) (rest : List (String × List (List Int))) :
    printVars rank obstype ((vname, cols) :: rest) =
      if checkCounts (globalCounts cols) then
        (emitIfRankZero rank (infoStr obstype vname) (globalCounts cols) ++
            (printVars rank obstype rest).1,
          (printVars rank obstype rest).2)
      else (emitIfRankZero rank (infoStr obstype vname) (globalCounts cols), false) :=
  rfl

/-- Helper: if some variable of the list fails the completeness check, the
whole report run ends with a failed assertion. -/
lemma printVars_ok_false (rank : Nat) (obstype : String)
    (varlist : List (String × List (List Int))) (vname : String)
    (cols : List (List Int)) (hv : (vname, cols) ∈ varlist)
    (hc : checkCounts (globalCounts cols) = false) :
    (printVars rank obstype varlist).2 = false := by
  induction varlist with
  | nil => cases hv
  | cons q rest ih =>
    obtain ⟨qn, qc⟩ := q
    by_cases hq : checkCounts (globalCounts qc) = true
    · rcases List.mem_cons.mp hv with h | h
      · rw [Prod.mk.injEq] at h
        rw [h.2] at hc
        rw [hc] at hq
        exact absurd hq (by simp)
      · rw [printVars_cons, if_pos hq]
        exact ih h
    · rw [printVars_cons, if_neg hq]

/-- C6: if any cell of a variable's columns holds a raw code that is none of
the recognized category codes, the completeness check for that variable
fails, and the report run over any variable list containing that variable
ends with a failed assertion instead of silently defaulting the cell into
some category. -/
theorem C6_unrecognized_code_fails (rank : Nat) (obstype : String)
    (varlist : List (String × List (List Int))) (vname : String)
    (cols : List (List Int)) (col : List Int) (x : Int)
    (hv : (vname, cols) ∈ varlist) (hcol : col ∈ cols) (hx : x ∈ col)
    (hbad : isRecognized x = false) :
    checkCounts (globalCounts cols) = false ∧
    (printVars rank obstype varlist).2 = false := by
  have hfail : checkCounts (globalCounts cols) = false := by
    rcases Bool.eq_false_or_eq_true (checkCounts (globalCounts cols)) with h | h
    · have hrec := (checkCounts_globalCounts_iff cols).mp h col hcol x hx
      rw [hbad] at hrec
      exact absurd hrec (by simp)
    · exact h
  exact ⟨hfail, printVars_ok_false rank obstype varlist vname cols hv hfail⟩

/-- Witness for C6: one worker, one variable, one cell with raw code 42. -/
theorem C6_unrecognized_code_fails_witness :
    checkCounts (globalCounts [[42]]) = false ∧
    (printVars 0 "t" [("x", [[42]])]).2 = false :=
  C6_unrecognized_code_fails 0 "t" [("x", [[42]])] "x" [[42]] [42] 42
    (by decide) (by decide) (by decide) (by decide)

/-- Helper: membership in a conditionally emitted singleton line. -/
lemma mem_optLine (a l : ReportLine) (n : Nat) :
    (a ∈ if n > 0 then [l] else []) ↔ (0 < n ∧ a = l) := by
  by_cases h : n > 0
  · simp [h]
  · simp [h]

/-- C7: only the rank-0 worker emits report lines (every other rank emits
nothing); each of the nine category lines appears in the emitted report iff
its count is nonzero, with the reality-check line counting the cells holding
raw code 76 or 77; and the summary line with the pass count out of the total
record count is always emitted. -/
theorem C7_report_emission (rank : Nat) (info : String) (c : VarCounts) :
    (rank ≠ 0 → emitIfRankZero rank info c = []) ∧
    emitIfRankZero 0 info c = emitLines info c ∧
    (ReportLine.missingValues info c.imiss ∈ emitLines info c ↔ 0 < c.imiss) ∧
    (ReportLine.rejectedByPreQC info c.ipreq ∈ emitLines info c ↔ 0 < c.ipreq) ∧
    (ReportLine.outOfBounds info c.ibnds ∈ emitLines info c ↔ 0 < c.ibnds) ∧
    (ReportLine.outOfDomain info c.iwhit ∈ emitLines info c ↔ 0 < c.iwhit) ∧
    (ReportLine.blackListed info c.iblck ∈ emitLines info c ↔ 0 < c.iblck) ∧
    (ReportLine.hxFailed info c.iherr ∈ emitLines info c ↔ 0 < c.iherr) ∧
    (ReportLine.removedByThinning info c.ithin ∈ emitLines info c ↔ 0 < c.ithin) ∧
    (ReportLine.rejectedByFirstGuess info c.ifgss ∈ emitLines info c ↔ 0 < c.ifgss) ∧
    (ReportLine.rejectedByGnssro info c.ignss ∈ emitLines info c ↔ 0 < c.ignss) ∧
    ReportLine.summary info c.ipass c.iobs ∈ emitLines info c ∧
    (∀ col : List Int, (localCounts col).ignss =
      col.countP (fun x => x == 76 || x == 77)) := by
  refine ⟨fun h => ?_, rfl, ?_, ?_, ?_, ?_, ?_, ?_, ?_, ?_, ?_, ?_, fun col => rfl⟩
  · unfold emitIfRankZero
    rw [if_neg]
    simpa using h
  all_goals simp [emitLines, List.mem_append, mem_optLine]

/-- Witness for C7: a worker of rank 1 emits nothing. -/
theorem C7_report_emission_witness : emitIfRankZero 1 "i" zeroCounts = [] :=
  (C7_report_emission 1 "i" zeroCounts).1 (by decide)

/-- Counterexample for C3 as stated: with one worker (rank 0) and one
variable whose single cell holds the unrecognized code 42, the completeness
check fails, yet the variable's report (its summary line) has already been
emitted — the check does not run before emission. -/
theorem C3_counterexample :
    (printVars 0 "t" [("x", [[42]])]).2 = false ∧
    (printVars 0 "t" [("x", [[42]])]).1 ≠ [] := by
  decide

/-- C3 amended: the Reporter runs the completeness check for a variable
after emitting that variable's report lines; on the first mismatch it aborts
having emitted the reports of every earlier variable and of the failing
variable itself, and emitting nothing for later variables. -/
theorem C3_check_runs_after_emission (obstype : String)
    (pre : List (String × List (List Int))) (vname : String)
    (cols : List (List Int)) (rest : List (String × List (List Int)))
    (hpre : ∀ p ∈ pre, checkCounts (globalCounts p.2) = true)
    (hfail : checkCounts (globalCounts cols) = false) :
    printVars 0 obstype (pre ++ (vname, cols) :: rest) =
      (((pre ++ [(vname, cols)]).map
          (fun p => emitLines (infoStr obstype p.1) (globalCounts p.2))).flatten,
        false) := by
  induction pre with
  | nil =>
    simp only [List.nil_append, List.map_cons, List.map_nil, List.flatten_cons, List.flatten_nil]
    rw [printVars_cons, if_neg (by simp [hfail])]
    simp [emitIfRankZero]
  | cons q pre ih =>
    obtain ⟨qn, qc⟩ := q
    have hq : checkCounts (globalCounts qc) = true :=
      hpre (qn, qc) (List.mem_cons_self _ _)
    have hp : ∀ p ∈ pre, checkCounts (globalCounts p.2) = true :=
      fun p hmem => hpre p (List.mem_cons_of_mem _ hmem)
    simp only [List.cons_append, List.map_cons, List.flatten_cons]
    rw [printVars_cons, if_pos hq, ih hp]
    simp [emitIfRankZero]

/-- Witness for C3's amended statement: the failing variable's lines are in
the output. -/
theorem C3_check_runs_after_emission_witness :
    printVars 0 "t" ([] ++ ("x", [[42]]) :: []) =
      ((([] ++ [("x", [[42]])] : List (String × List (List Int))).map
          (fun p => emitLines (infoStr "t" p.1) (globalCounts p.2))).flatten,
        false) :=
  C3_check_runs_after_emission "t" [] "x" [[42]] []
    (fun p hp => absurd hp (List.not_mem_nil p)) (by decide)

/-- C10: on an empty shard (`N = 0`) the Initializer and the Updater change
nothing, and for every variable the single-worker Reporter at rank 0 emits
no category line, emits exactly the summary line reporting 0 passed out of 0
observations, and every completeness check holds. -/
theorem C10_empty_shard (V : Nat) (imiss rmiss dmiss : Int)
    (flags obsvals obserr : Nat → Nat → Int) (hofx : Nat → Int)
    (obstype : String) (names : List String) :
    qcmanagerInit V 0 imiss rmiss flags obsvals obserr = flags ∧
    postFilter V 0 dmiss hofx flags = flags ∧
    printVars 0 obstype (names.map (fun n => (n, [[]]))) =
      (names.map (fun n => ReportLine.summary (infoStr obstype n) 0 0), true) := by
  refine ⟨?_, ?_, ?_⟩
  · funext jv jobs
    unfold qcmanagerInit
    rw [if_neg]
    intro h
    exact Nat.not_lt_zero jobs h.2
  · funext jv jobs
    unfold postFilter
    rw [if_neg]
    intro h
    exact Nat.not_lt_zero jobs h.2
  · induction names with
    | nil => rfl
    | cons n ns ih =>
      simp only [List.map_cons]
      rw [printVars_cons, if_pos (show checkCounts (globalCounts [[]]) = true from rfl)]
      rw [ih]
      have he : emitIfRankZero 0 (infoStr obstype n) (globalCounts [[]]) =
          [ReportLine.summary (infoStr obstype n) 0 0] := rfl
      rw [he]
      rfl

end UfoQC
